import Mathlib

/-!
Verification of the segment-to-artifact pipeline of `audio_transcribe.py`.

Shallow embedding conventions:
* Python `float` values are modelled as exact rationals (`ℚ`); the special
  values `nan`/`inf`/`-inf` are modelled by the separate type `PyFloat`.
* Python `round` (round-half-to-even on the exact value) is `rndHalfEven`.
* Python `divmod` on integers (floor division) is `Int.fdiv` / `Int.fmod`.
* Python `str(timedelta(seconds=n))` is `timedelta_str`.
* Python `str.strip()` is modelled by `String.trim` (ASCII whitespace).
* The file system and the engine's lazily-failing segment stream are made
  explicit: `EngineStream` is the list of segments the engine yields before
  it either completes (`failure = none`) or raises mid-stream
  (`failure = some msg`); `fails` is the set of destination file names whose
  `open(..., 'w')` raises an `IOError` (a failing open creates no file).
-/

namespace AudioTranscribe

/-- Round-half-to-even on an exact rational value; this is the behaviour of
Python's builtin `round` on a (finite) float, used at
`round(seconds*10**digits)` in `format_td` (src/audio_transcribe.py line 16). -/
def rndHalfEven (q : ℚ) : ℤ :=
  if q - q.floor < 1 / 2 then q.floor
  else if 1 / 2 < q - q.floor then q.floor + 1
  else if q.floor % 2 = 0 then q.floor else q.floor + 1

/-- Python `f'{s:0>8}'`: left-pad `s` with `'0'` to width at least `w`. -/
def padLeftZero (s : String) (w : ℕ) : String :=
  String.mk (List.replicate (w - s.length) '0') ++ s

/-- two-digit zero-padded rendering `%02d` used by `timedelta.__str__`
for the minute and second fields. -/
def two (n : ℕ) : String :=
  (if n < 10 then "0" else "") ++ Nat.repr n

/-- the `H:MM:SS` part of `timedelta.__str__` for `r` seconds,
`0 ≤ r < 86400`; the hour field carries no leading zero. -/
def hms (r : ℕ) : String :=
  Nat.repr (r / 3600) ++ ":" ++ two (r % 3600 / 60) ++ ":" ++ two (r % 60)

/-- Python `str(timedelta(seconds=n))` for an integer `n`: the seconds are
normalized to `d` days (floor division by 86400) plus a remainder
`r ∈ [0, 86400)`; a nonzero day count is rendered as a `"D day(s), "` prefix. -/
def timedelta_str (n : ℤ) : String :=
  let d : ℤ := Int.fdiv n 86400
  let r : ℕ := (Int.fmod n 86400).toNat
  if d = 0 then hms r
  else toString d ++ (if d = 1 ∨ d = -1 then " day, " else " days, ") ++ hms r

/-- `format_td(seconds, separator, digits)` of src/audio_transcribe.py
lines 14-17:
`isec, fsec = divmod(round(seconds*10**digits), 10**digits)` followed by
`f'{str(timedelta(seconds=isec)):0>8}{separator}{fsec:0{digits}.0f}'`
(the fractional field is an integer in `[0, 10^digits)`, zero-padded to
`digits` characters). The plain preset of the source is
`separator = "."`, `digits = 2`. -/
def format_td (seconds : ℚ) (separator : String) (digits : ℕ) : String :=
  let scaled : ℤ := rndHalfEven (seconds * (10 : ℚ) ^ digits)
  let isec : ℤ := Int.fdiv scaled ((10 : ℤ) ^ digits)
  let fsec : ℤ := Int.fmod scaled ((10 : ℤ) ^ digits)
  padLeftZero (timedelta_str isec) 8 ++ separator ++ padLeftZero (Nat.repr fsec.toNat) digits

/-- `format_to_srt_ts(seconds)` of src/audio_transcribe.py lines 19-21. -/
def format_to_srt_ts (seconds : ℚ) : String :=
  format_td seconds "," 3

/-- Python float domain including the non-finite values. -/
inductive PyFloat : Type
  | finite (q : ℚ)
  | nan
  | inf
  | ninf

/-- errors Python `round` raises on non-finite floats:
`ValueError` on NaN, `OverflowError` on an infinity. -/
inductive PyError : Type
  | valueError
  | overflowError
deriving DecidableEq

/-- overflow threshold of an IEEE-754 binary64 float: an exact real value of
magnitude at least `2^1024 - 2^970` (the midpoint between the largest finite
double and `2^1024`) rounds to an infinity under round-to-nearest; smaller
magnitudes round to a finite double. -/
def floatOverflowThreshold : ℚ := ((2 ^ (1024 : ℕ) - 2 ^ (970 : ℕ) : ℕ) : ℚ)

/-- `seconds * 10**digits` on the Python float domain: a finite value is
multiplied exactly, but the product overflows to `inf` / `-inf` when its
magnitude reaches the binary64 overflow threshold (in Python,
`1e307 * 100` is `inf`); NaN and the infinities propagate (the factor is
positive). -/
def pymulPow10 : PyFloat → ℕ → PyFloat
  | PyFloat.finite q, digits =>
    if floatOverflowThreshold ≤ q * (10 : ℚ) ^ digits then PyFloat.inf
    else if q * (10 : ℚ) ^ digits ≤ -floatOverflowThreshold then PyFloat.ninf
    else PyFloat.finite (q * (10 : ℚ) ^ digits)
  | PyFloat.nan, _ => PyFloat.nan
  | PyFloat.inf, _ => PyFloat.inf
  | PyFloat.ninf, _ => PyFloat.ninf

/-- Python `round` on the float domain: raises on non-finite input. -/
def pyround : PyFloat → Except PyError ℤ
  | PyFloat.finite q => Except.ok (rndHalfEven q)
  | PyFloat.nan => Except.error PyError.valueError
  | PyFloat.inf => Except.error PyError.overflowError
  | PyFloat.ninf => Except.error PyError.overflowError

/-- `format_td` on the full Python float domain, making the error behaviour
of `round(seconds*10**digits)` explicit — including the `OverflowError` hit
when a large finite `seconds` makes the product overflow to an infinity. -/
def format_td_float (seconds : PyFloat) (separator : String) (digits : ℕ) :
    Except PyError String :=
  match pyround (pymulPow10 seconds digits) with
  | Except.error e => Except.error e
  | Except.ok scaled =>
    Except.ok (padLeftZero (timedelta_str (Int.fdiv scaled ((10 : ℤ) ^ digits))) 8
      ++ separator ++ padLeftZero (Nat.repr (Int.fmod scaled ((10 : ℤ) ^ digits)).toNat) digits)

/-- numeric value of a decimal digit character. -/
def digitVal (c : Char) : ℕ := c.toNat - 48

/-- value of a big-endian list of decimal digit characters. -/
def natOfDigits (cs : List Char) : ℕ :=
  cs.foldl (fun a c => 10 * a + digitVal c) 0

/-- zero-padded big-endian `d`-digit decimal rendering of `n % 10^d`. -/
def digitsOf : ℕ → ℕ → List Char
  | 0, _ => []
  | d + 1, n => digitsOf d (n / 10) ++ [Nat.digitChar (n % 10)]

/-- parse a timestamp of the exact shape `HH:MM:SS<sep>F…F` (two-digit hour,
minute and second fields, then `sep`, then exactly `d` digit characters);
returns the denoted number of seconds, `none` if the string does not have
that shape. -/
def parseTs (str : String) (sep : Char) (d : ℕ) : Option ℚ :=
  match str.data with
  | h1 :: h2 :: c1 :: m1 :: m2 :: c2 :: s1 :: s2 :: sp :: rest =>
    if c1 = ':' ∧ c2 = ':' ∧ sp = sep ∧ rest.length = d
        ∧ ([h1, h2, m1, m2, s1, s2] ++ rest).all Char.isDigit then
      some (((natOfDigits [h1, h2] * 3600 + natOfDigits [m1, m2] * 60
              + natOfDigits [s1, s2] : ℕ) : ℚ)
            + (natOfDigits rest : ℚ) / (10 : ℚ) ^ d)
    else none
  | _ => none

/-- the string matches the fixed-width zero-padded pattern
`HH:MM:SS<sep>F…F` with exactly `d` fractional digits. -/
def matchesTs (str : String) (sep : Char) (d : ℕ) : Bool :=
  (parseTs str sep d).isSome

/-- Python `str.strip()`: remove leading and trailing whitespace
characters. -/
def pystrip (s : String) : String :=
  String.mk (((s.data.dropWhile Char.isWhitespace).reverse.dropWhile
    Char.isWhitespace).reverse)

/-- one SRT group of src/audio_transcribe.py lines 69-70:
`f"{counter}\n{format_to_srt_ts(s[0])} --> {format_to_srt_ts(s[1])}\n{s[2].strip()}\n\n"`
for a transcribed segment `s = (start, end, text)`. -/
def srt_block (counter : ℕ) (s : ℚ × ℚ × String) : String :=
  toString counter ++ "\n" ++ format_to_srt_ts s.1 ++ " --> " ++ format_to_srt_ts s.2.1
    ++ "\n" ++ pystrip s.2.2 ++ "\n\n"

/-- the list comprehension over `enumerate(transcribed_segments, 1)` of
src/audio_transcribe.py lines 69-71, with the running 1-based counter made
explicit. -/
def srt_groups_from : ℕ → List (ℚ × ℚ × String) → List String
  | _, [] => []
  | counter, s :: rest => srt_block counter s :: srt_groups_from (counter + 1) rest

/-- the `groups` list of src/audio_transcribe.py line 69: enumeration starts
at 1. -/
def srt_groups (segs : List (ℚ × ℚ × String)) : List String :=
  srt_groups_from 1 segs

/-- content of the `.srt` artifact: `srt_writer.writelines(groups)`
(src/audio_transcribe.py line 72) concatenates the groups with no separator. -/
def srt_render (segs : List (ℚ × ℚ × String)) : String :=
  String.join (srt_groups segs)

/-- content of the `.txt` artifact:
`txt_writer.writelines(s[2] for s in transcribed_segments)`
(src/audio_transcribe.py line 65) concatenates the raw segment texts with no
separator. -/
def txt_render (segs : List (ℚ × ℚ × String)) : String :=
  String.join (segs.map (fun s => s.2.2))

/-- specification-side SRT block, written from the spec's words (§4.3): the
ordinal line, the start and end timestamps joined by `" --> "`, the trimmed
segment text, then a blank line. -/
def srt_block_spec (ordinal : ℕ) (s : ℚ × ℚ × String) : String :=
  toString ordinal ++ "\n" ++ format_to_srt_ts s.1 ++ " --> " ++ format_to_srt_ts s.2.1
    ++ "\n" ++ pystrip s.2.2 ++ "\n\n"

/-- specification-side SRT document (§4.3, §8): for `N` segments, exactly
`N` blocks in sequence order, the block at 0-based position `k` carrying
ordinal `k + 1`, concatenated with no extra separators. -/
def srt_document_spec (segs : List (ℚ × ℚ × String)) : String :=
  String.join ((List.range segs.length).map
    (fun k => srt_block_spec (k + 1) (segs.getD k ((0 : ℚ), (0 : ℚ), ""))))

/-- specification-side plain-text document (§4.3): the concatenation of each
segment's text verbatim, in order, with no inserted separator. -/
def txt_document_spec (segs : List (ℚ × ℚ × String)) : String :=
  segs.foldl (fun acc s => acc ++ s.2.2) ""

/-- split a character list at every `'/'`; returns the head component and the
later components. -/
def splitSlashAux : List Char → List Char × List (List Char)
  | [] => ([], [])
  | c :: cs =>
    let r := splitSlashAux cs
    if c = '/' then ([], r.1 :: r.2) else (c :: r.1, r.2)

/-- all `'/'`-separated components of a character list. -/
def splitSlash (cs : List Char) : List (List Char) :=
  (splitSlashAux cs).1 :: (splitSlashAux cs).2

/-- `PurePosixPath(p).name`: the final path component, with empty components
(repeated or trailing slashes) and `'.'` components dropped. -/
def pathName (p : String) : List Char :=
  (((splitSlash p.data).filter (fun l => l ≠ [] ∧ l ≠ ['.'])).getLast?).getD []

/-- index of the last occurrence of `c`, like Python `str.rfind` (with `none`
for `-1`); `i` is the index of the head of the list being examined. -/
def rfindAux : List Char → Char → ℕ → Option ℕ
  | [], _, _ => none
  | x :: xs, c, i =>
    match rfindAux xs c (i + 1) with
    | some j => some j
    | none => if x = c then some i else none

/-- `PurePosixPath.stem` applied to a file name: drop the final extension,
where a dot at position 0 (hidden file) or at the very end starts no
extension. -/
def stemOfName (name : List Char) : List Char :=
  match rfindAux name '.' 0 with
  | some i => if 0 < i ∧ i < name.length - 1 then name.take i else name
  | none => name

/-- `Path(filepath).stem` of src/audio_transcribe.py line 61: the base name
of the audio file with its final extension removed; any directory component
of `filepath` is discarded. -/
def stem (filepath : String) : String :=
  String.mk (stemOfName (pathName filepath))

/-- engine metadata printed by the verbose branch (src/audio_transcribe.py
lines 49-51). -/
structure Info : Type where
  language : String
  language_probability : ℚ

/-- observable console output of a run: the detected-language line and the
per-segment progress lines, abstracted to the data they carry. -/
inductive OutEvent : Type
  | language (lang : String) (prob : ℚ)
  | progress (start stop : ℚ) (text : String)
deriving DecidableEq

/-- error surfaced by a run: the engine raising mid-stream, or an `IOError`
while opening a destination file for writing. -/
inductive RunError : Type
  | engine (msg : String)
  | io (filename : String)
deriving DecidableEq

/-- the engine's lazy segment sequence: the segments it yields in order,
then either normal exhaustion (`failure = none`) or an exception raised
mid-stream (`failure = some msg`). -/
structure EngineStream : Type where
  yielded : List (ℚ × ℚ × String)
  failure : Option String

/-- observable outcome of one `transcribe` run: console events in order,
files fully written (name, content) in order, and the propagated error if
the run failed. -/
structure RunOutcome : Type where
  events : List OutEvent
  files : List (String × String)
  error : Option RunError

/-- `transcribe(verbose, model_size, device, compute_type, filepath,
output_txt, output_srt)` of src/audio_transcribe.py lines 35-72, with the
black-box engine replaced by its contract: `info` and `stream` are what
`model.transcribe(filepath, beam_size=5)` produces, and `fails` says which
destination file names raise `IOError` at `open(..., 'w')` (a failing open
creates no file; a successful open writes the whole rendered document).
The for-loop at lines 55-58 drains the stream, printing each segment when
verbose; if the stream raises, the exception propagates before any file is
opened. Otherwise the `.txt` file is written first (lines 63-65), then the
`.srt` file (lines 67-72); an exception while writing one aborts the run at
that point. -/
def transcribe (verbose : Bool) (filepath : String)
    (output_txt : Bool) (output_srt : Bool)
    (info : Info) (stream : EngineStream) (fails : String → Bool) : RunOutcome :=
  let events :=
    if verbose then
      OutEvent.language info.language info.language_probability
        :: stream.yielded.map (fun s => OutEvent.progress s.1 s.2.1 s.2.2)
    else []
  match stream.failure with
  | some msg => { events := events, files := [], error := some (RunError.engine msg) }
  | none =>
    let transcribed_segments := stream.yielded
    if output_txt || output_srt then
      let filename := stem filepath
      if output_txt && fails (filename ++ ".txt") then
        { events := events, files := [], error := some (RunError.io (filename ++ ".txt")) }
      else
        let files1 :=
          if output_txt then [(filename ++ ".txt", txt_render transcribed_segments)] else []
        if output_srt && fails (filename ++ ".srt") then
          { events := events, files := files1,
            error := some (RunError.io (filename ++ ".srt")) }
        else
          { events := events,
            files := files1 ++ (if output_srt then
              [(filename ++ ".srt", srt_render transcribed_segments)] else []),
            error := none }
    else { events := events, files := [], error := none }

lemma digitsOf_length (d n : ℕ) : (digitsOf d n).length = d := by
  induction d generalizing n with
  | zero => rfl
  | succ d ih => simp [digitsOf, ih]

lemma digitChar_isDigit {m : ℕ} (h : m < 10) : (Nat.digitChar m).isDigit = true := by
  have : ∀ k, k < 10 → (Nat.digitChar k).isDigit = true := by decide
  exact this m h

lemma digitsOf_all (d n : ℕ) : (digitsOf d n).all Char.isDigit = true := by
  induction d generalizing n with
  | zero => rfl
  | succ d ih =>
    simp only [digitsOf, List.all_append, ih, Bool.true_and, List.all_cons, List.all_nil,
      Bool.and_true]
    exact digitChar_isDigit (Nat.mod_lt _ (by norm_num))

lemma digitVal_digitChar {m : ℕ} (h : m < 10) : digitVal (Nat.digitChar m) = m := by
  have : ∀ k, k < 10 → digitVal (Nat.digitChar k) = k := by decide
  exact this m h

lemma natOfDigits_append (xs : List Char) (c : Char) :
    natOfDigits (xs ++ [c]) = 10 * natOfDigits xs + digitVal c := by
  simp [natOfDigits, List.foldl_append]

lemma natOfDigits_digitsOf (d n : ℕ) (h : n < 10 ^ d) : natOfDigits (digitsOf d n) = n := by
  induction d generalizing n with
  | zero =>
    simp only [pow_zero, Nat.lt_one_iff] at h
    simp [h, digitsOf, natOfDigits]
  | succ d ih =>
    have hdiv : n / 10 < 10 ^ d := by
      rw [Nat.div_lt_iff_lt_mul (by norm_num)]
      calc n < 10 ^ (d + 1) := h
      _ = 10 ^ d * 10 := by rw [pow_succ]
    rw [digitsOf, natOfDigits_append, ih _ hdiv,
      digitVal_digitChar (Nat.mod_lt _ (by norm_num))]
    omega

lemma digitsOf_two (n : ℕ) :
    digitsOf 2 n = [Nat.digitChar (n / 10 % 10), Nat.digitChar (n % 10)] := by
  simp [digitsOf]

lemma two_data {n : ℕ} (h : n < 60) : (two n).data = digitsOf 2 n := by
  have : ∀ k, k < 60 → (two k).data = digitsOf 2 k := by decide
  exact this n h

lemma repr_lt10 {h : ℕ} (hh : h < 10) : (Nat.repr h).data = [Nat.digitChar h] := by
  have : ∀ k, k < 10 → (Nat.repr k).data = [Nat.digitChar k] := by decide
  exact this h hh

lemma repr_hour2 {h : ℕ} (hlo : 10 ≤ h) (hhi : h < 24) :
    (Nat.repr h).data = digitsOf 2 h := by
  have : ∀ k, k < 24 → 10 ≤ k → (Nat.repr k).data = digitsOf 2 k := by decide
  exact this h hhi hlo

lemma pad_repr_two {n : ℕ} (h : n < 100) :
    (padLeftZero (Nat.repr n) 2).data = digitsOf 2 n := by
  have : ∀ k, k < 100 → (padLeftZero (Nat.repr k) 2).data = digitsOf 2 k := by decide
  exact this n h

lemma pad_repr_three {n : ℕ} (h : n < 1000) :
    (padLeftZero (Nat.repr n) 3).data = digitsOf 3 n := by
  have : ∀ k, k < 1000 → (padLeftZero (Nat.repr k) 3).data = digitsOf 3 k := by
    set_option maxRecDepth 4096 in decide
  exact this n h

lemma hms_pad {r : ℕ} (hr : r < 86400) :
    (padLeftZero (hms r) 8).data
      = digitsOf 2 (r / 3600) ++ ':' :: (digitsOf 2 (r % 3600 / 60)
        ++ ':' :: digitsOf 2 (r % 60)) := by
  have hm : r % 3600 / 60 < 60 := by omega
  have hs : r % 60 < 60 := by omega
  have h2 := two_data hm
  have h3 := two_data hs
  have colon : (":" : String).data = [':'] := rfl
  by_cases hh : r / 3600 < 10
  · have h1 := repr_lt10 hh
    have hdiv : r / 3600 / 10 % 10 = 0 := by omega
    have hmod : r / 3600 % 10 = r / 3600 := by omega
    have hzero : Nat.digitChar 0 = '0' := rfl
    simp [padLeftZero, hms, String.data_append, h1, h2, h3, colon, String.length,
      digitsOf_length, digitsOf_two, hdiv, hmod, hzero]
  · have hh24 : r / 3600 < 24 := by omega
    have h1 := repr_hour2 (by omega) hh24
    simp [padLeftZero, hms, String.data_append, h1, h2, h3, colon, String.length,
      digitsOf_length]

lemma timedelta_str_small {I : ℕ} (h : I < 86400) : timedelta_str (I : ℤ) = hms I := by
  have hd : Int.fdiv (I : ℤ) 86400 = 0 := by
    rw [Int.fdiv_eq_ediv _ (by norm_num)]
    omega
  have hr : (Int.fmod (I : ℤ) 86400).toNat = I := by
    rw [Int.fmod_eq_emod _ (by norm_num)]
    omega
  simp [timedelta_str, hd, hr]

lemma rat_floor_eq_intFloor (q : ℚ) : q.floor = ⌊q⌋ :=
  (Rat.floor_def' q).trans Rat.floor_def.symm

lemma rndHalfEven_nonneg {q : ℚ} (hq : 0 ≤ q) : 0 ≤ rndHalfEven q := by
  have h0 : (0 : ℤ) ≤ q.floor := by
    rw [rat_floor_eq_intFloor]
    exact Int.floor_nonneg.mpr hq
  unfold rndHalfEven
  split
  · exact h0
  · split
    · omega
    · split <;> omega

lemma format_td_data {q : ℚ} {sep : String} {c : Char} {d : ℕ}
    (hsep : sep.data = [c])
    (hpad : ∀ m, m < 10 ^ d → (padLeftZero (Nat.repr m) d).data = digitsOf d m)
    (hq : 0 ≤ q) (hub : rndHalfEven (q * (10 : ℚ) ^ d) < 86400 * (10 : ℤ) ^ d) :
    (format_td q sep d).data
      = digitsOf 2 ((rndHalfEven (q * (10 : ℚ) ^ d)).toNat / 10 ^ d / 3600)
        ++ ':' :: (digitsOf 2 ((rndHalfEven (q * (10 : ℚ) ^ d)).toNat / 10 ^ d % 3600 / 60)
        ++ ':' :: (digitsOf 2 ((rndHalfEven (q * (10 : ℚ) ^ d)).toNat / 10 ^ d % 60)
        ++ c :: digitsOf d ((rndHalfEven (q * (10 : ℚ) ^ d)).toNat % 10 ^ d))) := by
  have hq10 : (0 : ℚ) ≤ q * (10 : ℚ) ^ d := mul_nonneg hq (by positivity)
  have hn0 : 0 ≤ rndHalfEven (q * (10 : ℚ) ^ d) := rndHalfEven_nonneg hq10
  set n : ℤ := rndHalfEven (q * (10 : ℚ) ^ d) with hn
  set N : ℕ := n.toNat with hNdef
  have hN : (N : ℤ) = n := Int.toNat_of_nonneg hn0
  have hP : 0 < 10 ^ d := Nat.pos_pow_of_pos d (by norm_num)
  have hPZ : ((10 ^ d : ℕ) : ℤ) = (10 : ℤ) ^ d := by push_cast; ring
  have hNub : N < 86400 * 10 ^ d := by
    have h1 : ((N : ℤ)) < 86400 * ((10 ^ d : ℕ) : ℤ) := by rw [hN, hPZ]; exact hub
    exact_mod_cast h1
  have hIsec : Int.fdiv n ((10 : ℤ) ^ d) = ((N / 10 ^ d : ℕ) : ℤ) := by
    rw [← hN, ← hPZ, Int.fdiv_eq_ediv _ (by positivity)]
    exact (Int.ofNat_ediv N (10 ^ d)).symm
  have hFsec : (Int.fmod n ((10 : ℤ) ^ d)).toNat = N % 10 ^ d := by
    rw [← hN, ← hPZ, Int.fmod_eq_emod _ (by positivity), ← Int.ofNat_emod]
    omega
  have hI : N / 10 ^ d < 86400 := by
    rw [Nat.div_lt_iff_lt_mul hP]
    omega
  have hunfold : format_td q sep d
      = padLeftZero (timedelta_str (Int.fdiv n ((10 : ℤ) ^ d))) 8 ++ sep
        ++ padLeftZero (Nat.repr (Int.fmod n ((10 : ℤ) ^ d)).toNat) d := rfl
  rw [hunfold, hIsec, hFsec, timedelta_str_small hI, String.data_append,
    String.data_append, hsep, hms_pad hI, hpad (N % 10 ^ d) (Nat.mod_lt _ hP)]
  simp [List.append_assoc]

lemma parseTs_of_data {str : String} {c : Char} {d : ℕ} {h m s f : ℕ}
    (hh : h < 100) (hm : m < 100) (hs : s < 100) (hf : f < 10 ^ d)
    (hstr : str.data = digitsOf 2 h ++ ':' :: (digitsOf 2 m ++ ':' :: (digitsOf 2 s
      ++ c :: digitsOf d f))) :
    parseTs str c d
      = some (((h * 3600 + m * 60 + s : ℕ) : ℚ) + (f : ℚ) / (10 : ℚ) ^ d) := by
  rw [digitsOf_two h, digitsOf_two m, digitsOf_two s] at hstr
  have hall : ([Nat.digitChar (h / 10 % 10), Nat.digitChar (h % 10),
      Nat.digitChar (m / 10 % 10), Nat.digitChar (m % 10),
      Nat.digitChar (s / 10 % 10), Nat.digitChar (s % 10)] ++ digitsOf d f).all
        Char.isDigit = true := by
    simp only [List.all_append, List.all_cons, List.all_nil, Bool.and_true,
      digitsOf_all, digitChar_isDigit (Nat.mod_lt _ (by norm_num : (0:ℕ) < 10)),
      Bool.true_and, Bool.and_self]
  have hvalh : natOfDigits [Nat.digitChar (h / 10 % 10), Nat.digitChar (h % 10)] = h := by
    simp only [natOfDigits, List.foldl_cons, List.foldl_nil,
      digitVal_digitChar (Nat.mod_lt _ (by norm_num : (0:ℕ) < 10))]
    omega
  have hvalm : natOfDigits [Nat.digitChar (m / 10 % 10), Nat.digitChar (m % 10)] = m := by
    simp only [natOfDigits, List.foldl_cons, List.foldl_nil,
      digitVal_digitChar (Nat.mod_lt _ (by norm_num : (0:ℕ) < 10))]
    omega
  have hvals : natOfDigits [Nat.digitChar (s / 10 % 10), Nat.digitChar (s % 10)] = s := by
    simp only [natOfDigits, List.foldl_cons, List.foldl_nil,
      digitVal_digitChar (Nat.mod_lt _ (by norm_num : (0:ℕ) < 10))]
    omega
  simp only [parseTs, hstr, List.cons_append, List.nil_append]
  rw [if_pos ⟨trivial, trivial, trivial, digitsOf_length d f, hall⟩,
    hvalh, hvalm, hvals, natOfDigits_digitsOf d f hf]

lemma format_td_parse {q : ℚ} {sep : String} {c : Char} {d : ℕ}
    (hsep : sep.data = [c])
    (hpad : ∀ m, m < 10 ^ d → (padLeftZero (Nat.repr m) d).data = digitsOf d m)
    (hq : 0 ≤ q) (hub : rndHalfEven (q * (10 : ℚ) ^ d) < 86400 * (10 : ℤ) ^ d) :
    parseTs (format_td q sep d) c d
      = some (((rndHalfEven (q * (10 : ℚ) ^ d) : ℤ) : ℚ) / (10 : ℚ) ^ d) := by
  have hq10 : (0 : ℚ) ≤ q * (10 : ℚ) ^ d := mul_nonneg hq (by positivity)
  have hn0 : 0 ≤ rndHalfEven (q * (10 : ℚ) ^ d) := rndHalfEven_nonneg hq10
  set n : ℤ := rndHalfEven (q * (10 : ℚ) ^ d) with hn
  set N : ℕ := n.toNat with hNdef
  have hN : (N : ℤ) = n := Int.toNat_of_nonneg hn0
  have hP : 0 < 10 ^ d := Nat.pos_pow_of_pos d (by norm_num)
  have hPZ : ((10 ^ d : ℕ) : ℤ) = (10 : ℤ) ^ d := by push_cast; ring
  have hNub : N < 86400 * 10 ^ d := by
    have h1 : ((N : ℤ)) < 86400 * ((10 ^ d : ℕ) : ℤ) := by rw [hN, hPZ]; exact hub
    exact_mod_cast h1
  have hI : N / 10 ^ d < 86400 := by
    rw [Nat.div_lt_iff_lt_mul hP]
    omega
  have hdata := format_td_data hsep hpad hq hub
  rw [← hn, ← hNdef] at hdata
  rw [parseTs_of_data (by omega) (by omega) (by omega)
    (Nat.mod_lt _ hP) hdata]
  congr 1
  have hsum : N / 10 ^ d / 3600 * 3600 + N / 10 ^ d % 3600 / 60 * 60 + N / 10 ^ d % 60
      = N / 10 ^ d := by omega
  rw [hsum, ← hN]
  have key : ((10 : ℚ)) ^ d * ((N / 10 ^ d : ℕ) : ℚ) + ((N % 10 ^ d : ℕ) : ℚ)
      = ((N : ℕ) : ℚ) := by
    exact_mod_cast Nat.div_add_mod N (10 ^ d)
  have h10 : ((10 : ℚ)) ^ d ≠ 0 := by positivity
  push_cast
  field_simp
  linarith [key]

lemma srt_block_eq_spec (k : ℕ) (s : ℚ × ℚ × String) : srt_block k s = srt_block_spec k s :=
  rfl

lemma srt_groups_from_eq_map (segs : List (ℚ × ℚ × String)) :
    ∀ c, srt_groups_from c segs
      = (List.range segs.length).map
          (fun k => srt_block (c + k) (segs.getD k ((0 : ℚ), (0 : ℚ), ""))) := by
  induction segs with
  | nil => intro c; rfl
  | cons s rest ih =>
    intro c
    rw [srt_groups_from, List.length_cons, List.range_succ_eq_map, List.map_cons,
      List.map_map, ih (c + 1)]
    refine congrArg₂ List.cons (by simp) ?_
    refine List.map_congr_left fun k _ => ?_
    simp only [Function.comp_apply, List.getD_cons_succ]
    have : c + (k + 1) = c + 1 + k := by ring
    rw [this]

lemma srt_groups_length (segs : List (ℚ × ℚ × String)) :
    (srt_groups segs).length = segs.length := by
  rw [srt_groups, srt_groups_from_eq_map]
  simp

lemma foldl_append_init (l : List String) :
    ∀ a : String, l.foldl (· ++ ·) a = a ++ l.foldl (· ++ ·) "" := by
  induction l with
  | nil => intro a; simp
  | cons x xs ih =>
    intro a
    simp only [List.foldl_cons]
    rw [ih (a ++ x), ih ("" ++ x), String.empty_append, String.append_assoc]

lemma txt_render_eq_spec (segs : List (ℚ × ℚ × String)) :
    txt_render segs = txt_document_spec segs := by
  rw [txt_render, txt_document_spec, String.join, List.foldl_map]

lemma txt_render_cons (s : ℚ × ℚ × String) (rest : List (ℚ × ℚ × String)) :
    txt_render (s :: rest) = s.2.2 ++ txt_render rest := by
  rw [txt_render, txt_render, String.join, String.join, List.map_cons, List.foldl_cons,
    foldl_append_init, String.empty_append]

lemma splitSlashAux_no_slash (cs : List Char) :
    '/' ∉ (splitSlashAux cs).1 ∧ ∀ l ∈ (splitSlashAux cs).2, '/' ∉ l := by
  induction cs with
  | nil => simp [splitSlashAux]
  | cons c cs ih =>
    by_cases hc : c = '/'
    · simp only [splitSlashAux, hc, if_pos rfl]
      refine ⟨by simp, ?_⟩
      intro l hl
      rcases List.mem_cons.mp hl with h | h
      · rw [h]; exact ih.1
      · exact ih.2 l h
    · simp only [splitSlashAux, if_neg hc]
      refine ⟨?_, ih.2⟩
      intro h
      rcases List.mem_cons.mp h with h | h
      · exact hc h.symm
      · exact ih.1 h

lemma pathName_no_slash (p : String) : '/' ∉ pathName p := by
  unfold pathName
  cases hl : ((splitSlash p.data).filter (fun l => l ≠ [] ∧ l ≠ ['.'])).getLast? with
  | none => simp
  | some l =>
    simp only [Option.getD_some]
    have hmem : l ∈ (splitSlash p.data).filter (fun l => l ≠ [] ∧ l ≠ ['.']) :=
      List.mem_of_getLast?_eq_some hl
    have hmem' : l ∈ splitSlash p.data := (List.mem_filter.mp hmem).1
    rcases List.mem_cons.mp hmem' with h | h
    · rw [h]; exact (splitSlashAux_no_slash p.data).1
    · exact (splitSlashAux_no_slash p.data).2 l h

lemma stem_no_slash (p : String) : '/' ∉ (stem p).data := by
  have hbase := pathName_no_slash p
  show '/' ∉ stemOfName (pathName p)
  unfold stemOfName
  cases rfindAux (pathName p) '.' 0 with
  | none => exact hbase
  | some i =>
    simp only
    split
    · intro hmem
      exact hbase (List.mem_of_mem_take hmem)
    · exact hbase

/-- C1 (amended): for every rational `seconds ≥ 0` whose rounded scaled value
stays below 24 hours (`rndHalfEven (seconds * 10 ^ d) < 86400 * 10 ^ d` for the
preset's digit count `d`), the plain preset (separator `'.'`, 2 digits) and the
SRT preset (separator `','`, 3 digits) each produce a fixed-width zero-padded
string of shape `HH:MM:SS<sep>FF` / `HH:MM:SS<sep>FFF`, and parsing the string
back recovers `seconds` rounded half-to-even to the stated digit count. The
original claim, stated for all `seconds ≥ 0` with hours allowed to exceed 24,
is false: from 24 hours on, Python's `str(timedelta)` interposes a
`"D day(s), "` prefix (see the counterexample). -/
theorem ts_format_fixed_width_roundtrip (q : ℚ) (hq : 0 ≤ q)
    (h2 : rndHalfEven (q * (10 : ℚ) ^ (2 : ℕ)) < 8640000)
    (h3 : rndHalfEven (q * (10 : ℚ) ^ (3 : ℕ)) < 86400000) :
    matchesTs (format_td q "." 2) '.' 2 = true
    ∧ parseTs (format_td q "." 2) '.' 2
        = some (((rndHalfEven (q * (10 : ℚ) ^ (2 : ℕ)) : ℤ) : ℚ) / (10 : ℚ) ^ (2 : ℕ))
    ∧ matchesTs (format_to_srt_ts q) ',' 3 = true
    ∧ parseTs (format_to_srt_ts q) ',' 3
        = some (((rndHalfEven (q * (10 : ℚ) ^ (3 : ℕ)) : ℤ) : ℚ) / (10 : ℚ) ^ (3 : ℕ)) := by
  have hsep2 : ("." : String).data = ['.'] := rfl
  have hsep3 : ("," : String).data = [','] := rfl
  have hpad2 : ∀ m, m < 10 ^ 2 → (padLeftZero (Nat.repr m) 2).data = digitsOf 2 m :=
    fun m hm => pad_repr_two (by norm_num at hm; exact hm)
  have hpad3 : ∀ m, m < 10 ^ 3 → (padLeftZero (Nat.repr m) 3).data = digitsOf 3 m :=
    fun m hm => pad_repr_three (by norm_num at hm; exact hm)
  have hub2 : rndHalfEven (q * (10 : ℚ) ^ (2 : ℕ)) < 86400 * (10 : ℤ) ^ (2 : ℕ) := by
    have he : (86400 : ℤ) * (10 : ℤ) ^ (2 : ℕ) = 8640000 := by norm_num
    rw [he]; exact h2
  have hub3 : rndHalfEven (q * (10 : ℚ) ^ (3 : ℕ)) < 86400 * (10 : ℤ) ^ (3 : ℕ) := by
    have he : (86400 : ℤ) * (10 : ℤ) ^ (3 : ℕ) = 86400000 := by norm_num
    rw [he]; exact h3
  have hp2 := format_td_parse hsep2 hpad2 hq hub2
  have hp3 := format_td_parse hsep3 hpad3 hq hub3
  refine ⟨?_, hp2, ?_, ?_⟩
  · rw [matchesTs, hp2]; rfl
  · rw [matchesTs, format_to_srt_ts, hp3]; rfl
  · rw [format_to_srt_ts]; exact hp3

unseal Rat.mul Rat.add Rat.sub Rat.inv in
/-- C1 witness: at `seconds = 13/4` both presets satisfy the round-trip
property (`"00:00:03.25"` and `"00:00:03,250"`). -/
theorem ts_format_fixed_width_roundtrip_witness :
    matchesTs (format_td ((13 : ℚ) / 4) "." 2) '.' 2 = true
    ∧ parseTs (format_td ((13 : ℚ) / 4) "." 2) '.' 2
        = some (((rndHalfEven (((13 : ℚ) / 4) * (10 : ℚ) ^ (2 : ℕ)) : ℤ) : ℚ)
          / (10 : ℚ) ^ (2 : ℕ))
    ∧ matchesTs (format_to_srt_ts ((13 : ℚ) / 4)) ',' 3 = true
    ∧ parseTs (format_to_srt_ts ((13 : ℚ) / 4)) ',' 3
        = some (((rndHalfEven (((13 : ℚ) / 4) * (10 : ℚ) ^ (3 : ℕ)) : ℤ) : ℚ)
          / (10 : ℚ) ^ (3 : ℕ)) :=
  ts_format_fixed_width_roundtrip ((13 : ℚ) / 4) (by decide) (by decide) (by decide)

unseal Rat.mul Rat.add Rat.sub Rat.inv in
/-- C1 counterexample: at 86400 seconds (exactly 24 hours, a nonnegative
input) Python's `str(timedelta)` emits the date component `"1 day, "`, so
neither preset matches the claimed fixed-width `HH:MM:SS<sep>F…F` pattern. -/
theorem ts_format_day_component :
    format_td 86400 "." 2 = "1 day, 0:00:00.00"
    ∧ matchesTs (format_td 86400 "." 2) '.' 2 = false
    ∧ format_to_srt_ts 86400 = "1 day, 0:00:00,000"
    ∧ matchesTs (format_to_srt_ts 86400) ',' 3 = false :=
  ⟨by decide, by decide, by decide, by decide⟩

unseal Rat.mul Rat.add Rat.sub Rat.inv in
/-- C2: rounding at the top of the 3-digit boundary carries into the next
whole second: `format_to_srt_ts 59.9996 = "00:01:00,000"`, and in particular
not the malformed `"00:00:59,1000"`. -/
theorem srt_rounding_carry :
    format_to_srt_ts ((599996 : ℚ) / 10000) = "00:01:00,000"
    ∧ format_to_srt_ts ((599996 : ℚ) / 10000) ≠ "00:00:59,1000" :=
  ⟨by decide, by decide⟩

lemma floatOverflowThreshold_pos : 0 < floatOverflowThreshold := by
  rw [floatOverflowThreshold]
  have h : (0 : ℕ) < 2 ^ (1024 : ℕ) - 2 ^ (970 : ℕ) := by
    have : (2 : ℕ) ^ (970 : ℕ) < 2 ^ (1024 : ℕ) :=
      Nat.pow_lt_pow_right (by norm_num) (by norm_num)
    omega
  exact_mod_cast h

/-- C6 (amended): the formatter returns a string on every finite input whose
scaled value `seconds * 10^digits` stays inside the binary64 float range —
including negative ones, which produce a `"-D day(s), "`-prefixed rendering
rather than an error — and fails with an InvalidArgument-kind error
otherwise: `OverflowError` when the scaled value of a finite input overflows
to an infinity (e.g. `1e307` with 2 digits), `ValueError` on NaN, and
`OverflowError` on infinite input. The original claim, that every negative
input fails with an InvalidArgument error, is false (see the
counterexample). -/
theorem format_td_float_domain (q : ℚ) (sep : String) (d : ℕ) :
    (-floatOverflowThreshold < q * (10 : ℚ) ^ d →
      q * (10 : ℚ) ^ d < floatOverflowThreshold →
      format_td_float (PyFloat.finite q) sep d = Except.ok (format_td q sep d))
    ∧ (floatOverflowThreshold ≤ q * (10 : ℚ) ^ d →
      format_td_float (PyFloat.finite q) sep d = Except.error PyError.overflowError)
    ∧ (q * (10 : ℚ) ^ d ≤ -floatOverflowThreshold →
      format_td_float (PyFloat.finite q) sep d = Except.error PyError.overflowError)
    ∧ format_td_float PyFloat.nan sep d = Except.error PyError.valueError
    ∧ format_td_float PyFloat.inf sep d = Except.error PyError.overflowError
    ∧ format_td_float PyFloat.ninf sep d = Except.error PyError.overflowError := by
  refine ⟨?_, ?_, ?_, rfl, rfl, rfl⟩
  · intro h1 h2
    have hmul : pymulPow10 (PyFloat.finite q) d = PyFloat.finite (q * (10 : ℚ) ^ d) := by
      simp only [pymulPow10]
      rw [if_neg (not_le.mpr h2), if_neg (not_le.mpr h1)]
    unfold format_td_float
    rw [hmul]
    rfl
  · intro h
    have hmul : pymulPow10 (PyFloat.finite q) d = PyFloat.inf := by
      simp only [pymulPow10]
      rw [if_pos h]
    unfold format_td_float
    rw [hmul]
    rfl
  · intro h
    have hlt : q * (10 : ℚ) ^ d < floatOverflowThreshold :=
      lt_of_le_of_lt h (lt_trans (neg_lt_zero.mpr floatOverflowThreshold_pos)
        floatOverflowThreshold_pos)
    have hmul : pymulPow10 (PyFloat.finite q) d = PyFloat.ninf := by
      simp only [pymulPow10]
      rw [if_neg (not_le.mpr hlt), if_pos h]
    unfold format_td_float
    rw [hmul]
    rfl

set_option maxRecDepth 100000 in
unseal Rat.mul Rat.add Rat.sub Rat.inv in
/-- C6 witness: the finite negative input `-5` stays in range and formats to
a string, while the finite input `10^307` overflows (`10^307 * 100 = 10^309`
exceeds the binary64 overflow threshold) and fails with `OverflowError`,
exactly as Python's `round(1e307 * 100)` does. -/
theorem format_td_float_domain_witness :
    format_td_float (PyFloat.finite (-5)) "." 2 = Except.ok (format_td (-5) "." 2)
    ∧ format_td_float (PyFloat.finite (((10 ^ (307 : ℕ) : ℕ)) : ℚ)) "." 2
        = Except.error PyError.overflowError :=
  ⟨(format_td_float_domain (-5) "." 2).1 (by decide) (by decide),
   (format_td_float_domain (((10 ^ (307 : ℕ) : ℕ)) : ℚ) "." 2).2.1 (by decide)⟩

set_option maxRecDepth 100000 in
unseal Rat.mul Rat.add Rat.sub Rat.inv in
/-- C6 counterexample: the negative finite input `-5` raises no error; the
code happily returns the day-prefixed string `"-1 day, 23:59:55.00"`. -/
theorem format_td_negative_no_error :
    format_td_float (PyFloat.finite (-5)) "." 2 = Except.ok "-1 day, 23:59:55.00" :=
  rfl

/-- C3: for every materialized segment list, the rendered SRT document has
exactly `N` blocks and equals the specification-side document: blocks in
sequence order with no extra separators, the block at 0-based position `k`
carrying ordinal `k + 1` (the output position — the segments carry no
engine identifier at all), the SRT-formatted start and end joined by
`" --> "`, the stripped text, and a trailing blank line. -/
theorem srt_document_structure (segs : List (ℚ × ℚ × String)) :
    (srt_groups segs).length = segs.length
    ∧ srt_render segs = srt_document_spec segs := by
  refine ⟨srt_groups_length segs, ?_⟩
  rw [srt_render, srt_document_spec, srt_groups, srt_groups_from_eq_map]
  refine congrArg String.join (List.map_congr_left fun k _ => ?_)
  rw [srt_block_eq_spec, Nat.add_comm 1 k]

unseal Rat.mul Rat.add Rat.sub Rat.inv in
/-- C4: the plain-text render concatenates each segment's text verbatim in
order with no separator (it equals the specification-side fold, and prepends
the raw head text on a cons), while the SRT block for the same segment
carries the whitespace-stripped text: the segment text `"  hello world  "`
contributes verbatim to the `.txt` document but renders stripped in its SRT
block. -/
theorem txt_verbatim_srt_stripped (s : ℚ × ℚ × String)
    (rest : List (ℚ × ℚ × String)) :
    txt_render (s :: rest) = s.2.2 ++ txt_render rest
    ∧ txt_render rest = txt_document_spec rest
    ∧ txt_render [((0 : ℚ), (3 : ℚ) / 2, "  hello world  ")] = "  hello world  "
    ∧ srt_render [((0 : ℚ), (3 : ℚ) / 2, "  hello world  ")]
        = "1\n00:00:00,000 --> 00:00:01,500\nhello world\n\n" :=
  ⟨txt_render_cons s rest, txt_render_eq_spec rest, by decide, by decide⟩

/-- C5: if the engine's lazy sequence raises mid-stream — after yielding any
number of segments — the failure propagates as the run's error, and no file
at all is written for that run. -/
theorem midstream_failure_all_or_nothing (verbose : Bool) (filepath : String)
    (output_txt output_srt : Bool) (info : Info) (stream : EngineStream)
    (fails : String → Bool) (msg : String) (h : stream.failure = some msg) :
    (transcribe verbose filepath output_txt output_srt info stream fails).files = []
    ∧ (transcribe verbose filepath output_txt output_srt info stream fails).error
        = some (RunError.engine msg) := by
  simp [transcribe, h]

/-- C5 witness: the engine failing after yielding three segments leaves no
file behind. -/
theorem midstream_failure_all_or_nothing_witness :
    (transcribe false "a.mp3" true true ⟨"en", 1⟩
      ⟨[((0 : ℚ), (1 : ℚ), " a "), ((1 : ℚ), (2 : ℚ), " b "), ((2 : ℚ), (3 : ℚ), " c ")],
        some "decode error"⟩ (fun _ => false)).files = []
    ∧ (transcribe false "a.mp3" true true ⟨"en", 1⟩
      ⟨[((0 : ℚ), (1 : ℚ), " a "), ((1 : ℚ), (2 : ℚ), " b "), ((2 : ℚ), (3 : ℚ), " c ")],
        some "decode error"⟩ (fun _ => false)).error
        = some (RunError.engine "decode error") :=
  midstream_failure_all_or_nothing false "a.mp3" true true ⟨"en", 1⟩
    ⟨[((0 : ℚ), (1 : ℚ), " a "), ((1 : ℚ), (2 : ℚ), " b "), ((2 : ℚ), (3 : ℚ), " c ")],
      some "decode error"⟩ (fun _ => false) "decode error" rfl

/-- C7 (amended): when both artifacts are requested the two writes are
neither independent nor atomic; they are sequential, `.txt` first: an
`IOError` opening the `.txt` destination aborts the run with no file written
(the `.srt` write is never attempted), while an `IOError` opening the `.srt`
destination leaves the already-written `.txt` file in place. -/
theorem artifact_writes_sequential (verbose : Bool) (filepath : String)
    (info : Info) (stream : EngineStream) (fails : String → Bool)
    (h : stream.failure = none) :
    (fails (stem filepath ++ ".txt") = true →
      (transcribe verbose filepath true true info stream fails).files = []
      ∧ (transcribe verbose filepath true true info stream fails).error
          = some (RunError.io (stem filepath ++ ".txt")))
    ∧ (fails (stem filepath ++ ".txt") = false →
        fails (stem filepath ++ ".srt") = true →
      (transcribe verbose filepath true true info stream fails).files
          = [(stem filepath ++ ".txt", txt_render stream.yielded)]
      ∧ (transcribe verbose filepath true true info stream fails).error
          = some (RunError.io (stem filepath ++ ".srt"))) := by
  constructor
  · intro ht
    simp [transcribe, h, ht]
  · intro ht hs
    simp [transcribe, h, ht, hs]

/-- C7 witness: both failure scenarios realized on concrete runs over
`b.mp3` with an empty segment list. -/
theorem artifact_writes_sequential_witness :
    ((transcribe false "b.mp3" true true ⟨"en", 1⟩ ⟨[], none⟩
        (fun n => n == "b.txt")).files = []
      ∧ (transcribe false "b.mp3" true true ⟨"en", 1⟩ ⟨[], none⟩
        (fun n => n == "b.txt")).error = some (RunError.io (stem "b.mp3" ++ ".txt")))
    ∧ ((transcribe false "b.mp3" true true ⟨"en", 1⟩ ⟨[], none⟩
        (fun n => n == "b.srt")).files = [(stem "b.mp3" ++ ".txt", txt_render [])]
      ∧ (transcribe false "b.mp3" true true ⟨"en", 1⟩ ⟨[], none⟩
        (fun n => n == "b.srt")).error = some (RunError.io (stem "b.mp3" ++ ".srt"))) :=
  ⟨(artifact_writes_sequential false "b.mp3" ⟨"en", 1⟩ ⟨[], none⟩
      (fun n => n == "b.txt") rfl).1 (by decide),
   (artifact_writes_sequential false "b.mp3" ⟨"en", 1⟩ ⟨[], none⟩
      (fun n => n == "b.srt") rfl).2 (by decide) (by decide)⟩

unseal Rat.mul Rat.add Rat.sub Rat.inv in
/-- C7 counterexample: both artifacts requested for `a.mp3`; a failing
`a.txt` open leaves the run with no files (the `a.srt` write is never
attempted, refuting independence), and a failing `a.srt` open leaves the
written `a.txt` behind (refuting atomicity). -/
theorem artifact_writes_not_independent :
    (transcribe false "a.mp3" true true ⟨"en", 1⟩
      ⟨[((0 : ℚ), (1 : ℚ), " hi ")], none⟩ (fun n => n == "a.txt")).files = []
    ∧ (transcribe false "a.mp3" true true ⟨"en", 1⟩
      ⟨[((0 : ℚ), (1 : ℚ), " hi ")], none⟩ (fun n => n == "a.txt")).error
        = some (RunError.io "a.txt")
    ∧ (transcribe false "a.mp3" true true ⟨"en", 1⟩
      ⟨[((0 : ℚ), (1 : ℚ), " hi ")], none⟩ (fun n => n == "a.srt")).files
        = [("a.txt", " hi ")]
    ∧ (transcribe false "a.mp3" true true ⟨"en", 1⟩
      ⟨[((0 : ℚ), (1 : ℚ), " hi ")], none⟩ (fun n => n == "a.srt")).error
        = some (RunError.io "a.srt") :=
  ⟨by decide, by decide, by decide, by decide⟩

/-- C8: two-run noninterference of the verbose progress output — with the
same configuration, segment stream and file system, the run with verbose on
and the run with verbose off produce identical files and the identical
error outcome; the progress notifications are purely advisory. (Both runs
materialize the same list `stream.yielded` by construction.) -/
theorem progress_noninterference (filepath : String) (output_txt output_srt : Bool)
    (info : Info) (stream : EngineStream) (fails : String → Bool) :
    (transcribe true filepath output_txt output_srt info stream fails).files
      = (transcribe false filepath output_txt output_srt info stream fails).files
    ∧ (transcribe true filepath output_txt output_srt info stream fails).error
      = (transcribe false filepath output_txt output_srt info stream fails).error := by
  cases h : stream.failure with
  | some msg => simp [transcribe, h]
  | none =>
    simp only [transcribe, h]
    constructor <;> split_ifs <;> rfl

/-- C9: with neither output flag set the pipeline writes no file at all,
whatever the engine produced and whether or not it failed. -/
theorem no_flags_no_files (verbose : Bool) (filepath : String) (info : Info)
    (stream : EngineStream) (fails : String → Bool) :
    (transcribe verbose filepath false false info stream fails).files = [] := by
  cases h : stream.failure <;> simp [transcribe, h]

/-- C10: each requested artifact is written to `stem ++ ".txt"` /
`stem ++ ".srt"`, where `stem` is the audio file's base name with its final
extension removed; the destination contains no `'/'`, so it resolves
relative to the process's working directory — transcribing
`/home/user/dir/talk.mp3` writes `talk.txt` / `talk.srt` there, not beside
the audio file. -/
theorem artifact_destination_paths (verbose : Bool) (filepath : String)
    (info : Info) (stream : EngineStream) (h : stream.failure = none) :
    (transcribe verbose filepath true true info stream (fun _ => false)).files
      = [(stem filepath ++ ".txt", txt_render stream.yielded),
         (stem filepath ++ ".srt", srt_render stream.yielded)]
    ∧ '/' ∉ (stem filepath).data
    ∧ stem "/home/user/dir/talk.mp3" = "talk" := by
  refine ⟨?_, stem_no_slash filepath, by decide⟩
  simp [transcribe, h]

/-- C10 witness: a run over `/home/user/dir/talk.mp3` with one segment. -/
theorem artifact_destination_paths_witness :
    (transcribe false "/home/user/dir/talk.mp3" true true ⟨"en", 1⟩
      ⟨[((0 : ℚ), (1 : ℚ), " hi ")], none⟩ (fun _ => false)).files
      = [(stem "/home/user/dir/talk.mp3" ++ ".txt",
          txt_render [((0 : ℚ), (1 : ℚ), " hi ")]),
         (stem "/home/user/dir/talk.mp3" ++ ".srt",
          srt_render [((0 : ℚ), (1 : ℚ), " hi ")])]
    ∧ '/' ∉ (stem "/home/user/dir/talk.mp3").data
    ∧ stem "/home/user/dir/talk.mp3" = "talk" :=
  artifact_destination_paths false "/home/user/dir/talk.mp3" ⟨"en", 1⟩
    ⟨[((0 : ℚ), (1 : ℚ), " hi ")], none⟩ rfl

end AudioTranscribe
